import Mathlib

/-!
Shallow embedding of `src/ida_pro_mcp/instance_registry.py`: a file-based
registry of IDA instances.  The filesystem directory of JSON record files is
modelled as an association list from file stem (the instance id) to file
content; file content is either a parsable record with the required fields
(`FileData.valid`) or unparsable / missing-field garbage (`FileData.corrupt`).
Ambient process state (current time, the registering process's pid, and the
`os.kill(pid, 0)` liveness probe) is an explicit `Env` argument.  Stateful
operations return their result together with the updated store.
-/

namespace IdaRegistry

/-- Constant `PORT_RANGE_START` from the source. -/
def PORT_RANGE_START : Nat := 13337

/-- Constant `PORT_RANGE_END` from the source (exclusive bound of the scan). -/
def PORT_RANGE_END : Nat := 13437

/-- Constant `STALE_TIMEOUT` (seconds) from the source. -/
def STALE_TIMEOUT : Int := 60

/-- The record persisted for one instance (`InstanceInfo` in the source).
Timestamps are modelled as integer epoch seconds. -/
structure InstanceInfo where
  instance_id : String
  host : String
  port : Nat
  binary_name : String
  binary_path : String
  pid : Nat
  timestamp : Int
deriving DecidableEq, Repr

/-- Content of one registry file: either JSON that parses and carries the
required fields, or garbage (unparsable JSON / missing required keys), which
the source detects via `json.JSONDecodeError` / `KeyError`. -/
inductive FileData where
  | valid (info : InstanceInfo)
  | corrupt
deriving DecidableEq, Repr

/-- The registry directory: one entry per file, keyed by the file stem
(`<instance_id>.json`), in directory-iteration order. -/
abbrev Store := List (String × FileData)

/-- Ambient process state: `now` is `time.time()`, `pid` is `os.getpid()`
of the registering process, `alive p` is whether the probe
`os.kill(p, 0)` succeeds. -/
structure Env where
  now : Int
  pid : Nat
  alive : Nat → Bool

/-- Method `is_stale` of `InstanceInfo`: `(time.time() - self.timestamp) > STALE_TIMEOUT`. -/
def InstanceInfo.is_stale (now : Int) (info : InstanceInfo) : Bool :=
  (now - info.timestamp) > STALE_TIMEOUT

/-- Method `is_alive` of `InstanceInfo`: the `os.kill(self.pid, 0)` probe. -/
def InstanceInfo.is_alive (alive : Nat → Bool) (info : InstanceInfo) : Bool :=
  alive info.pid

/-- Read the file `<id>.json` from the registry directory, if present. -/
def lookupFile (store : Store) (id : String) : Option FileData :=
  (store.find? (fun e => e.1 == id)).map (·.2)

/-- Writing `open(filepath, "w")` on `<id>.json`: overwrite the existing file or
create a new one. -/
def writeFile (store : Store) (id : String) (content : FileData) : Store :=
  if store.any (fun e => e.1 == id) then
    store.map (fun e => if e.1 == id then (id, content) else e)
  else
    store ++ [(id, content)]

/-- Function `register_instance`: persists a record whose caller-supplied fields are
the five arguments, whose `pid` is `os.getpid()` and whose `timestamp` is
`time.time()`.  Returns the registered record and the updated store. -/
def register_instance (instance_id host : String) (port : Nat)
    (binary_name binary_path : String) (env : Env) (store : Store) :
    InstanceInfo × Store :=
  let info : InstanceInfo :=
    { instance_id := instance_id
      host := host
      port := port
      binary_name := binary_name
      binary_path := binary_path
      pid := env.pid
      timestamp := env.now }
  (info, writeFile store instance_id (FileData.valid info))

/-- Function `unregister_instance`: `filepath.unlink(missing_ok=True)` then
`return True`; removes the file for `id` when present. -/
def unregister_instance (id : String) (store : Store) : Bool × Store :=
  (true, store.filter (fun e => !(e.1 == id)))

/-- Function `refresh_instance`: returns `False` if the file does not exist or does
not parse; otherwise rewrites the file with only `timestamp` replaced by
`time.time()` and returns `True`. -/
def refresh_instance (id : String) (env : Env) (store : Store) :
    Bool × Store :=
  match lookupFile store id with
  | none => (false, store)
  | some FileData.corrupt => (false, store)
  | some (FileData.valid info) =>
      (true, writeFile store id (FileData.valid { info with timestamp := env.now }))

/-- Function `find_instance_by_id`: reads `<id>.json`; `None` when the file is missing
or unparsable.  The function performs no write, so the store is returned
unchanged. -/
def find_instance_by_id (id : String) (store : Store) :
    Option InstanceInfo × Store :=
  match lookupFile store id with
  | none => (none, store)
  | some FileData.corrupt => (none, store)
  | some (FileData.valid info) => (some info, store)

/-- Function `list_instances`: iterates the registry files in order.  An unparsable
file is deleted and skipped.  When `include_stale` is false, a parsable
record that is stale and whose owner process is dead is deleted and skipped;
every other parsable record is kept in the store and appended to the result. -/
def list_instances (include_stale : Bool) (env : Env) :
    Store → List InstanceInfo × Store
  | [] => ([], [])
  | (name, content) :: rest =>
      let r := list_instances include_stale env rest
      match content with
      | FileData.corrupt => r
      | FileData.valid info =>
          if !include_stale && info.is_stale env.now && !(info.is_alive env.alive) then
            r
          else
            (info :: r.1, (name, content) :: r.2)

/-- Python `str.lower()` as used for the registry's case-insensitive
binary-name comparison, modelled character-wise (ASCII case folding). -/
def lower (s : String) : String := ⟨s.data.map Char.toLower⟩

/-- Function `find_instance_by_binary`: first record of `list_instances()` whose
`binary_name`, lower-cased, equals the lower-cased query. -/
def find_instance_by_binary (binary_name : String) (env : Env)
    (store : Store) : Option InstanceInfo × Store :=
  let r := list_instances false env store
  (r.1.find? (fun info => lower info.binary_name == lower binary_name),
   r.2)

/-- Function `cleanup_stale_instances`: scans every registry file; a parsable record
that is stale and dead is deleted and counted; an unparsable file is deleted
and counted; returns the count and the remaining store. -/
def cleanup_stale_instances (env : Env) : Store → Nat × Store
  | [] => (0, [])
  | (name, content) :: rest =>
      let r := cleanup_stale_instances env rest
      match content with
      | FileData.corrupt => (r.1 + 1, r.2)
      | FileData.valid info =>
          if info.is_stale env.now && !(info.is_alive env.alive) then
            (r.1 + 1, r.2)
          else
            (r.1, (name, content) :: r.2)

/-- The `for port in range(PORT_RANGE_START, PORT_RANGE_END)` loop of
`find_available_port`: scan `n` consecutive candidates starting at `start`,
skipping ports in `ports` (the snapshot of registered ports) and ports the
OS bind attempt rejects, returning the first remaining candidate. -/
def scanPorts (ports : List Nat) (bindable : Nat → Bool) :
    Nat → Nat → Option Nat
  | _, 0 => none
  | start, n + 1 =>
      if ports.contains start then
        scanPorts ports bindable (start + 1) n
      else if bindable start then
        some start
      else
        scanPorts ports bindable (start + 1) n

/-- Function `find_available_port`: snapshots the ports of `list_instances()`, scans
the port range in ascending order and returns the first candidate that is
neither registered nor rejected by the OS bind; raises `RuntimeError`
(modelled as `Except.error` with the source's message) when the range is
exhausted.  `bindable p` models whether `socket.bind((host, p))` succeeds. -/
def find_available_port (bindable : Nat → Bool) (env : Env)
    (store : Store) : Except String Nat × Store :=
  let r := list_instances false env store
  let registered_ports := r.1.map (·.port)
  match scanPorts registered_ports bindable PORT_RANGE_START
      (PORT_RANGE_END - PORT_RANGE_START) with
  | some p => (Except.ok p, r.2)
  | none =>
      (Except.error
        s!"No available ports in range {PORT_RANGE_START}-{PORT_RANGE_END}",
       r.2)

/-! ### Derived predicates and store lemmas -/

/-- Deletion predicate applied by `cleanup_stale_instances` to each entry:
an entry is removed when it is unparsable, or parsable but both stale and
dead. -/
def reapTarget (env : Env) : String × FileData → Bool
  | (_, FileData.corrupt) => true
  | (_, FileData.valid info) => info.is_stale env.now && !(info.is_alive env.alive)

/-- An entry that is parsable, stale and dead. -/
def staleDead (env : Env) : String × FileData → Bool
  | (_, FileData.corrupt) => false
  | (_, FileData.valid info) => info.is_stale env.now && !(info.is_alive env.alive)

/-- An unparsable entry. -/
def isCorruptEntry : String × FileData → Bool
  | (_, FileData.corrupt) => true
  | (_, FileData.valid _) => false

/-- Survival predicate of one pass of `list_instances` over the store. -/
def keepEntry (include_stale : Bool) (env : Env) : String × FileData → Bool
  | (_, FileData.corrupt) => false
  | (_, FileData.valid info) =>
      !(!include_stale && info.is_stale env.now && !(info.is_alive env.alive))

theorem keepEntry_false_eq (env : Env) (e : String × FileData) :
    keepEntry false env e = !(reapTarget env e) := by
  obtain ⟨n, c⟩ := e
  cases c <;> simp [keepEntry, reapTarget]

theorem list_instances_store_eq_filter (include_stale : Bool) (env : Env) :
    ∀ store : Store,
      (list_instances include_stale env store).2 =
        store.filter (keepEntry include_stale env)
  | [] => rfl
  | (n, c) :: rest => by
      have ih := list_instances_store_eq_filter include_stale env rest
      cases c with
      | corrupt => simp [list_instances, List.filter_cons, keepEntry, ih]
      | valid i =>
          by_cases hc :
              (!include_stale && i.is_stale env.now && !(i.is_alive env.alive)) = true
          · simp [list_instances, List.filter_cons, keepEntry, hc, ih]
          · rw [Bool.not_eq_true] at hc
            simp [list_instances, List.filter_cons, keepEntry, hc, ih]

theorem cleanup_store_eq_filter (env : Env) :
    ∀ store : Store,
      (cleanup_stale_instances env store).2 =
        store.filter (fun e => !(reapTarget env e))
  | [] => rfl
  | (n, c) :: rest => by
      have ih := cleanup_store_eq_filter env rest
      cases c with
      | corrupt => simp [cleanup_stale_instances, List.filter_cons, reapTarget, ih]
      | valid i =>
          by_cases hc : (i.is_stale env.now && !(i.is_alive env.alive)) = true
          · simp [cleanup_stale_instances, List.filter_cons, reapTarget, hc, ih]
          · rw [Bool.not_eq_true] at hc
            simp [cleanup_stale_instances, List.filter_cons, reapTarget, hc, ih]

theorem cleanup_count_eq_countP (env : Env) :
    ∀ store : Store,
      (cleanup_stale_instances env store).1 = store.countP (reapTarget env)
  | [] => rfl
  | (n, c) :: rest => by
      have ih := cleanup_count_eq_countP env rest
      cases c with
      | corrupt => simp [cleanup_stale_instances, List.countP_cons, reapTarget, ih]
      | valid i =>
          by_cases hc : (i.is_stale env.now && !(i.is_alive env.alive)) = true
          · simp [cleanup_stale_instances, List.countP_cons, reapTarget, hc, ih]
          · rw [Bool.not_eq_true] at hc
            simp [cleanup_stale_instances, List.countP_cons, reapTarget, hc, ih]

theorem countP_reapTarget_split (env : Env) :
    ∀ store : Store,
      store.countP (reapTarget env) =
        store.countP (staleDead env) + store.countP isCorruptEntry
  | [] => rfl
  | (n, c) :: rest => by
      have ih := countP_reapTarget_split env rest
      cases c with
      | corrupt =>
          simp [List.countP_cons, reapTarget, staleDead, isCorruptEntry, ih]
          omega
      | valid i =>
          by_cases hc : (i.is_stale env.now && !(i.is_alive env.alive)) = true
          · simp [List.countP_cons, reapTarget, staleDead, isCorruptEntry, hc, ih]
            omega
          · rw [Bool.not_eq_true] at hc
            simp [List.countP_cons, reapTarget, staleDead, isCorruptEntry, hc, ih]

theorem mem_list_instances_result (env : Env) (name : String)
    (info : InstanceInfo) :
    ∀ store : Store, (name, FileData.valid info) ∈ store →
      ¬(info.is_stale env.now = true ∧ info.is_alive env.alive = false) →
      info ∈ (list_instances false env store).1
  | (n, c) :: rest, h, hP => by
      rcases List.mem_cons.mp h with heq | hrest
      · cases heq
        have hcond :
            (!false && info.is_stale env.now && !(info.is_alive env.alive)) = false := by
          cases hs : info.is_stale env.now with
          | false => simp [hs]
          | true =>
              cases ha : info.is_alive env.alive with
              | false => exact absurd ⟨hs, ha⟩ hP
              | true => simp [hs, ha]
        simp only [list_instances]
        simp only [hcond]
        simp
      · have ihres := mem_list_instances_result env name info rest hrest hP
        cases c with
        | corrupt => simpa [list_instances] using ihres
        | valid i =>
            simp only [list_instances]
            split
            · exact ihres
            · simpa using Or.inr ihres

theorem find?_map_replace (id : String) (content : FileData) (store : Store)
    (h : store.any (fun e => e.1 == id) = true) :
    (store.map (fun e => if e.1 == id then (id, content) else e)).find?
      (fun e => e.1 == id) = some (id, content) := by
  induction store with
  | nil => simp at h
  | cons e rest ih =>
      by_cases he : e.1 = id
      · simp [List.find?_cons, he, -List.find?_map]
      · have hr : rest.any (fun x => x.1 == id) = true := by
          simpa [List.any_cons, he] using h
        simpa [List.find?_cons, he, -List.find?_map] using ih hr

theorem find?_map_replace_ne (id id' : String) (content : FileData)
    (hne : id' ≠ id) (store : Store) :
    (store.map (fun e => if e.1 == id then (id, content) else e)).find?
        (fun e => e.1 == id') = store.find? (fun e => e.1 == id') := by
  induction store with
  | nil => rfl
  | cons e rest ih =>
      by_cases he : e.1 = id
      · have h1 : (id == id') = false := by
          simp [beq_eq_false_iff_ne]
          exact fun hc => hne hc.symm
        simpa [List.find?_cons, he, h1, -List.find?_map] using ih
      · cases hb : (e.1 == id') with
        | true => simp [List.find?_cons, he, hb, -List.find?_map]
        | false => simpa [List.find?_cons, he, hb, -List.find?_map] using ih

theorem find?_writeFile_ne (store : Store) (id id' : String)
    (content : FileData) (hne : id' ≠ id) :
    (writeFile store id content).find? (fun e => e.1 == id') =
      store.find? (fun e => e.1 == id') := by
  unfold writeFile
  by_cases h : store.any (fun e => e.1 == id) = true
  · rw [if_pos h]
    exact find?_map_replace_ne id id' content hne store
  · rw [if_neg h]
    rw [List.find?_append]
    have hsingle : [(id, content)].find? (fun e => e.1 == id') = none := by
      have h1 : (id == id') = false := by
        simp [beq_eq_false_iff_ne]
        exact fun hc => hne hc.symm
      simp [List.find?_cons, h1]
    cases hfind : store.find? (fun e => e.1 == id') <;> simp [hsingle, hfind]

theorem lookupFile_writeFile_self (store : Store) (id : String)
    (content : FileData) :
    lookupFile (writeFile store id content) id = some content := by
  unfold writeFile lookupFile
  by_cases h : store.any (fun e => e.1 == id) = true
  · rw [if_pos h]
    rw [find?_map_replace id content store h]
    rfl
  · rw [if_neg h]
    rw [List.find?_append]
    have hnone : store.find? (fun e => e.1 == id) = none := by
      rw [List.find?_eq_none]
      intro e he hc
      exact h (List.any_eq_true.mpr ⟨e, he, hc⟩)
    simp [hnone, List.find?_cons]

theorem lookupFile_writeFile_ne (store : Store) (id id' : String)
    (content : FileData) (hne : id' ≠ id) :
    lookupFile (writeFile store id content) id' = lookupFile store id' := by
  unfold lookupFile
  rw [find?_writeFile_ne store id id' content hne]

theorem scanPorts_ok (ports : List Nat) (bindable : Nat → Bool) :
    ∀ (n start p : Nat), scanPorts ports bindable start n = some p →
      start ≤ p ∧ p < start + n ∧ ports.contains p = false ∧
        bindable p = true ∧
        ∀ q, start ≤ q → q < p → ports.contains q = true ∨ bindable q = false
  | 0, start, p, h => by simp [scanPorts] at h
  | n + 1, start, p, h => by
      rw [scanPorts] at h
      by_cases hc : ports.contains start = true
      · rw [if_pos hc] at h
        obtain ⟨h1, h2, h3, h4, h5⟩ := scanPorts_ok ports bindable n (start + 1) p h
        refine ⟨by omega, by omega, h3, h4, ?_⟩
        intro q hq1 hq2
        rcases Nat.eq_or_lt_of_le hq1 with rfl | hlt
        · exact Or.inl hc
        · exact h5 q hlt hq2
      · rw [if_neg hc] at h
        rw [Bool.not_eq_true] at hc
        by_cases hb : bindable start = true
        · rw [if_pos hb] at h
          injection h with h
          subst h
          exact ⟨Nat.le_refl _, by omega, hc, hb, fun q hq1 hq2 => by omega⟩
        · rw [if_neg hb] at h
          rw [Bool.not_eq_true] at hb
          obtain ⟨h1, h2, h3, h4, h5⟩ := scanPorts_ok ports bindable n (start + 1) p h
          refine ⟨by omega, by omega, h3, h4, ?_⟩
          intro q hq1 hq2
          rcases Nat.eq_or_lt_of_le hq1 with rfl | hlt
          · exact Or.inr hb
          · exact h5 q hlt hq2

theorem scanPorts_none (ports : List Nat) (bindable : Nat → Bool) :
    ∀ (n start : Nat),
      (∀ q, start ≤ q → q < start + n →
        ports.contains q = true ∨ bindable q = false) →
      scanPorts ports bindable start n = none
  | 0, start, _ => by simp [scanPorts]
  | n + 1, start, h => by
      rw [scanPorts]
      have htail : ∀ q, start + 1 ≤ q → q < start + 1 + n →
          ports.contains q = true ∨ bindable q = false := by
        intro q hq1 hq2
        exact h q (by omega) (by omega)
      rcases h start (Nat.le_refl _) (by omega) with hc | hb
      · rw [if_pos hc]
        exact scanPorts_none ports bindable n (start + 1) htail
      · by_cases hc : ports.contains start = true
        · rw [if_pos hc]
          exact scanPorts_none ports bindable n (start + 1) htail
        · rw [if_neg hc, if_neg (by simp [hb])]
          exact scanPorts_none ports bindable n (start + 1) htail

/-! ### Concrete fixtures used by witnesses and counterexamples -/

/-- An environment at time 1000 where the registering process has pid 7 and
only the process with pid 1 is alive. -/
def envW : Env := ⟨1000, 7, fun p => p == 1⟩

/-- A record that is stale (last heartbeat at 0) and whose owner is dead. -/
def recStaleDead : InstanceInfo :=
  ⟨"a", "127.0.0.1", 13337, "x.exe", "", 2, 0⟩

/-- A record equally stale but whose owner process (pid 1) is alive. -/
def recStaleAlive : InstanceInfo :=
  ⟨"b", "127.0.0.1", 13338, "y.exe", "", 1, 0⟩

/-- A fresh record (heartbeat at 990, within the 60-second timeout). -/
def recFresh : InstanceInfo :=
  ⟨"c", "127.0.0.1", 13339, "MyBinary.EXE", "", 2, 990⟩

/-- A store holding a stale-dead record, a stale-alive record, a fresh record
and one corrupt file. -/
def storeW : Store :=
  [("a", FileData.valid recStaleDead), ("b", FileData.valid recStaleAlive),
   ("c", FileData.valid recFresh), ("zz", FileData.corrupt)]

/-! ### Claim theorems -/

/-- C1: for every persisted parsable record, `list_instances` with
`include_stale = false` and `cleanup_stale_instances` delete the record if
and only if it is both stale and its owner process is dead; a record that is
equally stale but whose owner process is alive is retained and, for list,
included in the result. -/
theorem c1_reap_iff_stale_and_dead (env : Env) (store : Store)
    (name : String) (info : InstanceInfo)
    (h : (name, FileData.valid info) ∈ store) :
    ((name, FileData.valid info) ∉ (list_instances false env store).2 ↔
        info.is_stale env.now = true ∧ info.is_alive env.alive = false) ∧
    ((name, FileData.valid info) ∉ (cleanup_stale_instances env store).2 ↔
        info.is_stale env.now = true ∧ info.is_alive env.alive = false) ∧
    (info.is_stale env.now = true → info.is_alive env.alive = true →
      (name, FileData.valid info) ∈ (list_instances false env store).2 ∧
      info ∈ (list_instances false env store).1) := by
  have hlist : (name, FileData.valid info) ∈ (list_instances false env store).2 ↔
      (info.is_stale env.now && !(info.is_alive env.alive)) = false := by
    rw [list_instances_store_eq_filter, List.mem_filter]
    constructor
    · rintro ⟨-, hk⟩
      cases hcond : (info.is_stale env.now && !(info.is_alive env.alive)) with
      | false => rfl
      | true => simp [keepEntry, hcond] at hk
    · intro hc
      exact ⟨h, by simp [keepEntry, hc]⟩
  have hclean : (name, FileData.valid info) ∈ (cleanup_stale_instances env store).2 ↔
      (info.is_stale env.now && !(info.is_alive env.alive)) = false := by
    rw [cleanup_store_eq_filter, List.mem_filter]
    constructor
    · rintro ⟨-, hk⟩
      cases hcond : (info.is_stale env.now && !(info.is_alive env.alive)) with
      | false => rfl
      | true => simp [reapTarget, hcond] at hk
    · intro hc
      exact ⟨h, by simp [reapTarget, hc]⟩
  have hbool : (info.is_stale env.now && !(info.is_alive env.alive)) = true ↔
      (info.is_stale env.now = true ∧ info.is_alive env.alive = false) := by
    simp
  refine ⟨?_, ?_, ?_⟩
  · rw [hlist, ← hbool]
    simp
  · rw [hclean, ← hbool]
    simp
  · intro hs ha
    have hc : (info.is_stale env.now && !(info.is_alive env.alive)) = false := by
      simp [hs, ha]
    refine ⟨hlist.mpr hc, ?_⟩
    refine mem_list_instances_result env name info store h ?_
    rintro ⟨-, h2⟩
    rw [ha] at h2
    exact Bool.true_eq_false ▸ h2

/-- Witness for C1: in the concrete store, the stale-but-alive record "b"
satisfies the hypothesis, the two reaping characterizations, and is retained
and listed. -/
theorem c1_reap_iff_stale_and_dead_witness :
    ("b", FileData.valid recStaleAlive) ∈ storeW ∧
    (("b", FileData.valid recStaleAlive) ∉ (list_instances false envW storeW).2 ↔
        recStaleAlive.is_stale envW.now = true ∧
          recStaleAlive.is_alive envW.alive = false) ∧
    (("b", FileData.valid recStaleAlive) ∉ (cleanup_stale_instances envW storeW).2 ↔
        recStaleAlive.is_stale envW.now = true ∧
          recStaleAlive.is_alive envW.alive = false) ∧
    (("b", FileData.valid recStaleAlive) ∈ (list_instances false envW storeW).2 ∧
      recStaleAlive ∈ (list_instances false envW storeW).1) :=
  ⟨by decide,
   (c1_reap_iff_stale_and_dead envW storeW "b" recStaleAlive (by decide)).1,
   (c1_reap_iff_stale_and_dead envW storeW "b" recStaleAlive (by decide)).2.1,
   (c1_reap_iff_stale_and_dead envW storeW "b" recStaleAlive (by decide)).2.2
     (by decide) (by decide)⟩

/-- C2 counterexample: on a store holding a single corrupt record file,
`find_instance_by_id` returns `None` but the corrupt file is still present
in the store after the read — the read does not delete it, contrary to the
claimed deletion side effect. -/
theorem c2_counterexample :
    (find_instance_by_id "x" [("x", FileData.corrupt)]).1 = none ∧
    ("x", FileData.corrupt) ∈ (find_instance_by_id "x" [("x", FileData.corrupt)]).2 := by
  decide

/-- C2 (amended): `find_instance_by_id` returns `None` rather than raising
when the record file is missing or unparsable, and it performs no deletion:
the store after the read is exactly the store before. -/
theorem c2_get_absent_leaves_store (id : String) (store : Store)
    (h : lookupFile store id = none ∨
      lookupFile store id = some FileData.corrupt) :
    (find_instance_by_id id store).1 = none ∧
    (find_instance_by_id id store).2 = store := by
  rcases h with h | h <;> simp [find_instance_by_id, h]

/-- Witness for the amended C2 at the concrete corrupt store. -/
theorem c2_get_absent_leaves_store_witness :
    (lookupFile [("x", FileData.corrupt)] "x" = none ∨
      lookupFile [("x", FileData.corrupt)] "x" = some FileData.corrupt) ∧
    ((find_instance_by_id "x" [("x", FileData.corrupt)]).1 = none ∧
     (find_instance_by_id "x" [("x", FileData.corrupt)]).2 =
       [("x", FileData.corrupt)]) :=
  ⟨by decide, c2_get_absent_leaves_store "x" [("x", FileData.corrupt)] (by decide)⟩

/-- An environment whose registering process has pid 1. -/
def envPid1 : Env := ⟨100, 1, fun _ => true⟩

/-- An environment whose registering process has pid 2. -/
def envPid2 : Env := ⟨100, 2, fun _ => true⟩

/-- C3 counterexample: `register_instance` takes no owner-pid argument; the
persisted `pid` is `os.getpid()` of the registering process, so two calls
with identical caller-supplied arguments persist different
`owner_process_id` values when issued from different processes.  The
`owner_process_id` is therefore not among the caller-supplied field values. -/
theorem c3_counterexample :
    (register_instance "a" "127.0.0.1" 13337 "x.exe" "" envPid1 []).1.pid ≠
    (register_instance "a" "127.0.0.1" 13337 "x.exe" "" envPid2 []).1.pid := by
  decide

/-- C3 (amended): the persisted record carries exactly the caller-supplied
values for `instance_id`, `host`, `port`, `binary_name` and `binary_path`;
`register` itself sets `owner_process_id` to the registering process's own
pid and `last_heartbeat` to the current time, and stores the record under
`instance_id`. -/
theorem c3_register_persists_caller_fields (instance_id host : String)
    (port : Nat) (binary_name binary_path : String) (env : Env)
    (store : Store) :
    ((register_instance instance_id host port binary_name binary_path env store).1.instance_id
        = instance_id) ∧
    ((register_instance instance_id host port binary_name binary_path env store).1.host
        = host) ∧
    ((register_instance instance_id host port binary_name binary_path env store).1.port
        = port) ∧
    ((register_instance instance_id host port binary_name binary_path env store).1.binary_name
        = binary_name) ∧
    ((register_instance instance_id host port binary_name binary_path env store).1.binary_path
        = binary_path) ∧
    ((register_instance instance_id host port binary_name binary_path env store).1.pid
        = env.pid) ∧
    ((register_instance instance_id host port binary_name binary_path env store).1.timestamp
        = env.now) ∧
    (lookupFile
        (register_instance instance_id host port binary_name binary_path env store).2
        instance_id =
      some (FileData.valid
        (register_instance instance_id host port binary_name binary_path env store).1)) :=
  ⟨rfl, rfl, rfl, rfl, rfl, rfl, rfl,
    lookupFile_writeFile_self store instance_id _⟩

/-- C4: `refresh_instance` returns `False` (not an exception) when no record
file exists for the id; when a parsable record exists it returns `True` and
rewrites only that file, replacing only the `timestamp` field, every other
field of the record and every other file being unchanged. -/
theorem c4_refresh_notfound_and_frame (id : String) (env : Env)
    (store : Store) :
    (lookupFile store id = none → refresh_instance id env store = (false, store)) ∧
    (∀ info, lookupFile store id = some (FileData.valid info) →
      (refresh_instance id env store).1 = true ∧
      lookupFile (refresh_instance id env store).2 id =
        some (FileData.valid { info with timestamp := env.now }) ∧
      ∀ id', id' ≠ id →
        lookupFile (refresh_instance id env store).2 id' = lookupFile store id') := by
  constructor
  · intro h
    simp [refresh_instance, h]
  · intro info h
    refine ⟨by simp [refresh_instance, h], ?_, ?_⟩
    · simp [refresh_instance, h, lookupFile_writeFile_self]
    · intro id' hne
      simp [refresh_instance, h, lookupFile_writeFile_ne store id id' _ hne]

/-- Witness for C4: refreshing a missing id fails; refreshing the fresh
record "c" succeeds, bumps only its timestamp and leaves file "a" alone. -/
theorem c4_refresh_notfound_and_frame_witness :
    (refresh_instance "nope" envW storeW = (false, storeW)) ∧
    ((refresh_instance "c" envW storeW).1 = true ∧
     lookupFile (refresh_instance "c" envW storeW).2 "c" =
       some (FileData.valid { recFresh with timestamp := envW.now }) ∧
     lookupFile (refresh_instance "c" envW storeW).2 "a" = lookupFile storeW "a") :=
  ⟨(c4_refresh_notfound_and_frame "nope" envW storeW).1 (by decide),
   ((c4_refresh_notfound_and_frame "c" envW storeW).2 recFresh (by decide)).1,
   ((c4_refresh_notfound_and_frame "c" envW storeW).2 recFresh (by decide)).2.1,
   ((c4_refresh_notfound_and_frame "c" envW storeW).2 recFresh (by decide)).2.2
     "a" (by decide)⟩

/-- C5: a successful `refresh` sets `last_heartbeat` to the current time,
which is ≥ its previous value whenever the clock has not run backwards since
the record was written, so `last_heartbeat` is monotonically non-decreasing
over the record's lifetime. -/
theorem c5_refresh_monotone (id : String) (env : Env) (store : Store)
    (info : InstanceInfo)
    (hlk : lookupFile store id = some (FileData.valid info))
    (hclock : info.timestamp ≤ env.now) :
    ∃ info', lookupFile (refresh_instance id env store).2 id =
        some (FileData.valid info') ∧
      info.timestamp ≤ info'.timestamp ∧ info'.timestamp = env.now := by
  refine ⟨{ info with timestamp := env.now }, ?_, hclock, rfl⟩
  simp [refresh_instance, hlk, lookupFile_writeFile_self]

/-- Witness for C5 at the fresh record "c". -/
theorem c5_refresh_monotone_witness :
    ∃ info', lookupFile (refresh_instance "c" envW storeW).2 "c" =
        some (FileData.valid info') ∧
      recFresh.timestamp ≤ info'.timestamp ∧ info'.timestamp = envW.now :=
  c5_refresh_monotone "c" envW storeW recFresh (by decide) (by decide)

/-- C6: `register` followed by `find_instance_by_id` on the same id returns a
record equal to the registered one in every field, with `last_heartbeat` ≥
the registered value. -/
theorem c6_register_then_find_roundtrip (instance_id host : String)
    (port : Nat) (binary_name binary_path : String) (env : Env)
    (store : Store) :
    ∃ found,
      (find_instance_by_id instance_id
          (register_instance instance_id host port binary_name binary_path env store).2).1 =
        some found ∧
      found.instance_id =
        (register_instance instance_id host port binary_name binary_path env store).1.instance_id ∧
      found.host =
        (register_instance instance_id host port binary_name binary_path env store).1.host ∧
      found.port =
        (register_instance instance_id host port binary_name binary_path env store).1.port ∧
      found.binary_name =
        (register_instance instance_id host port binary_name binary_path env store).1.binary_name ∧
      found.binary_path =
        (register_instance instance_id host port binary_name binary_path env store).1.binary_path ∧
      found.pid =
        (register_instance instance_id host port binary_name binary_path env store).1.pid ∧
      (register_instance instance_id host port binary_name binary_path env store).1.timestamp ≤
        found.timestamp := by
  refine ⟨(register_instance instance_id host port binary_name binary_path env store).1,
    ?_, rfl, rfl, rfl, rfl, rfl, rfl, le_refl _⟩
  simp [find_instance_by_id, register_instance, lookupFile_writeFile_self]

/-- C7: `find_available_port` scans the configured range in ascending order
and returns the first candidate (first-fit) that is neither in the snapshot
of ports of listed (non-reaped) records nor rejected by the OS bind; in
particular a port held by a fresh record — such as 13337 — is never
returned; when every candidate is skipped or unbindable it fails with the
`RuntimeError` message naming the scanned range. -/
theorem c7_find_available_port (bindable : Nat → Bool) (env : Env)
    (store : Store) :
    (∀ p, (find_available_port bindable env store).1 = Except.ok p →
       PORT_RANGE_START ≤ p ∧ p < PORT_RANGE_END ∧
       p ∉ (list_instances false env store).1.map (fun i => i.port) ∧
       bindable p = true ∧
       ∀ q, PORT_RANGE_START ≤ q → q < p →
         q ∈ (list_instances false env store).1.map (fun i => i.port) ∨
           bindable q = false) ∧
    (∀ name info, (name, FileData.valid info) ∈ store →
       info.is_stale env.now = false → info.port = 13337 →
       (find_available_port bindable env store).1 ≠ Except.ok 13337) ∧
    ((∀ q, PORT_RANGE_START ≤ q → q < PORT_RANGE_END →
        q ∈ (list_instances false env store).1.map (fun i => i.port) ∨
          bindable q = false) →
      (find_available_port bindable env store).1 =
        Except.error "No available ports in range 13337-13437") := by
  have hconst : PORT_RANGE_START + (PORT_RANGE_END - PORT_RANGE_START) =
      PORT_RANGE_END := by decide
  refine ⟨?_, ?_, ?_⟩
  · intro p hp
    cases hscan : scanPorts ((list_instances false env store).1.map (fun i => i.port))
        bindable PORT_RANGE_START (PORT_RANGE_END - PORT_RANGE_START) with
    | none => simp [find_available_port, hscan] at hp
    | some q =>
        have hq : q = p := by simpa [find_available_port, hscan] using hp
        subst hq
        obtain ⟨h1, h2, h3, h4, h5⟩ := scanPorts_ok _ bindable _ _ _ hscan
        rw [hconst] at h2
        refine ⟨h1, h2, ?_, h4, ?_⟩
        · intro hmem
          have hc : (List.map (fun i => i.port)
              (list_instances false env store).1).contains q = true := by
            simpa using hmem
          rw [hc] at h3
          exact Bool.noConfusion h3
        · intro q' hq1 hq2
          rcases h5 q' hq1 hq2 with hc | hb
          · exact Or.inl (List.elem_iff.mp hc)
          · exact Or.inr hb
  · intro name info hmem hfresh hport heq
    have hinst : info ∈ (list_instances false env store).1 := by
      refine mem_list_instances_result env name info store hmem ?_
      rintro ⟨hs, -⟩
      rw [hfresh] at hs
      exact Bool.noConfusion hs
    have hports : (13337 : Nat) ∈
        (list_instances false env store).1.map (fun i => i.port) :=
      List.mem_map.mpr ⟨info, hinst, hport⟩
    cases hscan : scanPorts ((list_instances false env store).1.map (fun i => i.port))
        bindable PORT_RANGE_START (PORT_RANGE_END - PORT_RANGE_START) with
    | none => simp [find_available_port, hscan] at heq
    | some q =>
        have hq : q = 13337 := by simpa [find_available_port, hscan] using heq
        subst hq
        obtain ⟨-, -, h3, -, -⟩ := scanPorts_ok _ bindable _ _ _ hscan
        have hc : (List.map (fun i => i.port)
            (list_instances false env store).1).contains 13337 = true := by
          simpa using hports
        rw [hc] at h3
        exact Bool.noConfusion h3
  · intro hall
    have hnone : scanPorts ((list_instances false env store).1.map (fun i => i.port))
        bindable PORT_RANGE_START (PORT_RANGE_END - PORT_RANGE_START) = none := by
      apply scanPorts_none
      intro q hq1 hq2
      rw [hconst] at hq2
      rcases hall q hq1 hq2 with hmem | hb
      · exact Or.inl (List.elem_iff.mpr hmem)
      · exact Or.inr hb
    simp [find_available_port, hnone]
    rfl

/-- A fresh record occupying port 13337. -/
def recFresh7 : InstanceInfo :=
  ⟨"c7", "127.0.0.1", 13337, "w.exe", "", 1, 990⟩

/-- Witness for C7: with nothing bindable the scan fails with the range
message; with a fresh record on 13337 the allocator never returns 13337. -/
theorem c7_find_available_port_witness :
    (find_available_port (fun _ => false) envW []).1 =
        Except.error "No available ports in range 13337-13437" ∧
    (find_available_port (fun _ => true) envW
        [("c7", FileData.valid recFresh7)]).1 ≠ Except.ok 13337 :=
  ⟨(c7_find_available_port (fun _ => false) envW []).2.2
      (fun _ _ _ => Or.inr rfl),
   (c7_find_available_port (fun _ => true) envW
        [("c7", FileData.valid recFresh7)]).2.1
      "c7" recFresh7 (by decide) (by decide) (by decide)⟩

/-- C8: `find_instance_by_binary` performs a case-insensitive exact match of
each listed record's `binary_name` against the query: it returns `None` iff
no listed record matches case-insensitively, and any record it returns is a
listed record whose lower-cased `binary_name` equals the lower-cased query. -/
theorem c8_find_by_binary_case_insensitive (binary_name : String) (env : Env)
    (store : Store) :
    ((find_instance_by_binary binary_name env store).1 = none ↔
       ∀ info ∈ (list_instances false env store).1,
         lower info.binary_name ≠ lower binary_name) ∧
    (∀ info, (find_instance_by_binary binary_name env store).1 = some info →
       info ∈ (list_instances false env store).1 ∧
       lower info.binary_name = lower binary_name) := by
  constructor
  · constructor
    · intro h info hmem
      have hnone : (list_instances false env store).1.find?
          (fun i => lower i.binary_name == lower binary_name) = none := by
        simpa [find_instance_by_binary] using h
      have := List.find?_eq_none.mp hnone info hmem
      simpa using this
    · intro hall
      simp only [find_instance_by_binary]
      rw [List.find?_eq_none]
      intro info hmem
      simpa using hall info hmem
  · intro info h
    have h' : (list_instances false env store).1.find?
        (fun i => lower i.binary_name == lower binary_name) = some info := by
      simpa [find_instance_by_binary] using h
    exact ⟨List.mem_of_find?_eq_some h', by simpa using List.find?_some h'⟩

/-- Witness for C8: the record registered with binary name "MyBinary.EXE" is
returned for the query "mybinary.exe". -/
theorem c8_find_by_binary_case_insensitive_witness :
    recFresh ∈ (list_instances false envW [("c", FileData.valid recFresh)]).1 ∧
    lower recFresh.binary_name = lower "mybinary.exe" :=
  (c8_find_by_binary_case_insensitive "mybinary.exe" envW
      [("c", FileData.valid recFresh)]).2 recFresh (by decide)

/-- C9: `unregister_instance` on an id with no persisted record returns
`True` (success) and leaves the store exactly as it was: deleting a
non-existent id is not an error. -/
theorem c9_unregister_missing_id (id : String) (store : Store)
    (h : lookupFile store id = none) :
    unregister_instance id store = (true, store) := by
  have hfind : store.find? (fun e => e.1 == id) = none := by
    have h' : (store.find? (fun e => e.1 == id)).map (·.2) = none := h
    cases hf : store.find? (fun e => e.1 == id) with
    | none => rfl
    | some e => rw [hf] at h'; exact Option.noConfusion h'
  have hall := List.find?_eq_none.mp hfind
  have hfilter : store.filter (fun e => !(e.1 == id)) = store := by
    rw [List.filter_eq_self]
    intro e he
    simpa using hall e he
  simp [unregister_instance, hfilter]

/-- Witness for C9 at an id absent from the concrete store. -/
theorem c9_unregister_missing_id_witness :
    unregister_instance "ghost" storeW = (true, storeW) :=
  c9_unregister_missing_id "ghost" storeW (by decide)

/-- C10: `cleanup_stale_instances` deletes every unparsable record file, its
returned count equals the number of stale-and-dead records plus the number of
unparsable files, and therefore exceeds the number of stale-and-dead records
whenever an unparsable file is present. -/
theorem c10_cleanup_counts_corrupt (env : Env) (store : Store)
    (h : 0 < store.countP isCorruptEntry) :
    (∀ name, (name, FileData.corrupt) ∉ (cleanup_stale_instances env store).2) ∧
    (cleanup_stale_instances env store).1 =
      store.countP (staleDead env) + store.countP isCorruptEntry ∧
    store.countP (staleDead env) < (cleanup_stale_instances env store).1 := by
  have hcount := cleanup_count_eq_countP env store
  have hsplit := countP_reapTarget_split env store
  refine ⟨?_, ?_, ?_⟩
  · intro name hmem
    rw [cleanup_store_eq_filter] at hmem
    have hk := (List.mem_filter.mp hmem).2
    simp [reapTarget] at hk
  · rw [hcount, hsplit]
  · rw [hcount, hsplit]
    omega

/-- Witness for C10: the concrete store holds one corrupt file; it is gone
after cleanup and the count (2: one stale-dead record plus one corrupt file)
exceeds the stale-and-dead count (1). -/
theorem c10_cleanup_counts_corrupt_witness :
    ("zz", FileData.corrupt) ∉ (cleanup_stale_instances envW storeW).2 ∧
    (cleanup_stale_instances envW storeW).1 =
      storeW.countP (staleDead envW) + storeW.countP isCorruptEntry ∧
    storeW.countP (staleDead envW) < (cleanup_stale_instances envW storeW).1 :=
  ⟨(c10_cleanup_counts_corrupt envW storeW (by decide)).1 "zz",
   (c10_cleanup_counts_corrupt envW storeW (by decide)).2.1,
   (c10_cleanup_counts_corrupt envW storeW (by decide)).2.2⟩

end IdaRegistry
